import Mathlib

/-!
Verification development for the `termfmt` library.

The embedding models the per-stream state the library attaches to a
`std::basic_ostream` (the `iword` flag word, the `pword` modifier stack and
its registered destruction callback), the modifier catalog and algebra, and
the emission behaviour of `internal::ModBase::put`, `ModStack::reset`,
`ModStack::apply`, `tfmt::pushModifier` and `tfmt::popModifier`.

A stream's byte output is modelled as a list of emission chunks; the exact
bytes written by the C++ code are recovered by `tfmt.Chunk.bytes`.  Fatal
outcomes (failed `assert`, `std::vector::pop_back` on an empty vector) are
modelled by the `tfmt.Fatal` error type.
-/

namespace tfmt

/-- `tfmt::internal::ModBase` / `tfmt::Modifier`: an ANSI byte sequence, a
list of HTML fragments, and the reset flag (set only by the `ResetTag`
constructor). -/
structure Modifier where
  ansiBuffer : String
  htmlBuffer : List String
  isReset : Bool
deriving DecidableEq, Repr

/-- The `ModBase(std::string_view, std::string)` constructor: the single HTML
fragment is wrapped in a one-element vector, `isReset` defaults to false. -/
def mkMod (ansiMod : String) (htmlMod : String) : Modifier :=
  { ansiBuffer := ansiMod, htmlBuffer := [htmlMod], isReset := false }

/-- The `ModBase(std::string_view, ResetTag)` constructor. -/
def mkReset (ansiMod : String) : Modifier :=
  { ansiBuffer := ansiMod, htmlBuffer := [], isReset := true }

/-- `tfmt::operator|(Modifier const&, Modifier const&)`: builds a fresh
modifier through the `(string_view, vector)` constructor, so `isReset` of the
result is false. -/
def combine (lhs rhs : Modifier) : Modifier :=
  { ansiBuffer := lhs.ansiBuffer ++ rhs.ansiBuffer
    htmlBuffer := lhs.htmlBuffer ++ rhs.htmlBuffer
    isReset := false }

/-- `tfmt::operator|(Modifier&&, Modifier const&)`: appends into the moved-in
left operand and returns it, so the result keeps `lhs.isReset`. -/
def combineMove (lhs rhs : Modifier) : Modifier :=
  { ansiBuffer := lhs.ansiBuffer ++ rhs.ansiBuffer
    htmlBuffer := lhs.htmlBuffer ++ rhs.htmlBuffer
    isReset := lhs.isReset }

/-- `tfmt::modifiers::Reset` (`extern internal::ModBase const Reset`). -/
def Reset : Modifier := mkReset "\x1b[00m"

/-- `tfmt::modifiers::None`. -/
def None : Modifier := mkMod "" ""

def Bold : Modifier := mkMod "\x1b[1m" ""
def Italic : Modifier := mkMod "\x1b[3m" ""
def Underline : Modifier := mkMod "\x1b[4m" ""
def Blink : Modifier := mkMod "\x1b[5m" ""
def Concealed : Modifier := mkMod "\x1b[8m" ""
def Crossed : Modifier := mkMod "\x1b[9m" ""

def Grey : Modifier := mkMod "\x1b[30m" "DimGray"
def Red : Modifier := mkMod "\x1b[31m" "Crimson"
def Green : Modifier := mkMod "\x1b[32m" "ForestGreen"
def Yellow : Modifier := mkMod "\x1b[33m" "DarkKhaki"
def Blue : Modifier := mkMod "\x1b[34m" "RoyalBlue"
def Magenta : Modifier := mkMod "\x1b[35m" "MediumVioletRed"
def Cyan : Modifier := mkMod "\x1b[36m" "DarkTurquoise"
def White : Modifier := mkMod "\x1b[37m" ""

def BrightGrey : Modifier := mkMod "\x1b[90m" "LightSlateGray"
def BrightRed : Modifier := mkMod "\x1b[91m" "Salmon"
def BrightGreen : Modifier := mkMod "\x1b[92m" "MediumSeaGreen"
def BrightYellow : Modifier := mkMod "\x1b[93m" "Khaki"
def BrightBlue : Modifier := mkMod "\x1b[94m" "CornflowerBlue"
def BrightMagenta : Modifier := mkMod "\x1b[95m" "DeepPink"
def BrightCyan : Modifier := mkMod "\x1b[96m" "MediumTurquoise"
def BrightWhite : Modifier := mkMod "\x1b[97m" ""

/-- One emission into the stream: the ANSI branch of `ModBase::put`, the HTML
branch of `ModBase::put`, or ordinary text insertion. -/
inductive Chunk where
  | ansi (m : Modifier)
  | html (m : Modifier)
  | text (s : String)
deriving DecidableEq, Repr

/-- Exact bytes a chunk stands for, following `internal::ModBase::put`: the
ANSI branch writes `ansiBuffer`, the HTML branch writes `</font>` for the
reset modifier and `<font color="NAME">` (with `NAME = htmlBuffer.front()`)
otherwise. -/
def Chunk.bytes : Chunk → String
  | .ansi m => m.ansiBuffer
  | .html m =>
      if m.isReset then "</font>"
      else "<font color=\"" ++ m.htmlBuffer.headD "" ++ "\">"
  | .text s => s

/-- Fatal outcomes of library misuse. -/
inductive Fatal where
  | assertionFailure
  | popBackOnEmpty
deriving DecidableEq, Repr

/-- A `std::basic_ostream` together with the state `termfmt` attaches to it:
`out` is the emission history of the stream, `iword` the flag word stored at
the library's `xalloc` index, `stack` the `pword`-attached modifier stack
(`none` while no stack object was ever allocated), `cleanup` whether the
`erase_event` destruction callback has been registered, and `terminal` the
result of `tfmt::isTerminal` for this stream (an OS-level query that is
fixed for the stream's lifetime). -/
structure OStream where
  out : List Chunk
  iword : Nat
  stack : Option (List Modifier)
  cleanup : Bool
  terminal : Bool
deriving DecidableEq, Repr

def terminalBit : Nat := 0
def htmlBit : Nat := 1
def widthMask : Nat := 0xFF00

/-- `tfmt::isTerminal`. -/
def isTerminal (s : OStream) : Bool := s.terminal

/-- `tfmt::isTermFormattable`: the terminal bit of the flag word, or the
terminal auto-detection fallback. -/
def isTermFormattable (s : OStream) : Bool :=
  (s.iword &&& (1 <<< terminalBit)) != 0 || isTerminal s

/-- `tfmt::isHTMLFormattable`: the HTML bit of the flag word, with no
fallback. -/
def isHTMLFormattable (s : OStream) : Bool :=
  (s.iword &&& (1 <<< htmlBit)) != 0

/-- `tfmt::setTermFormattable`: ORs `value << terminalBit` into the word. -/
def setTermFormattable (s : OStream) (value : Bool) : OStream :=
  { s with iword := s.iword ||| ((if value then 1 else 0) <<< terminalBit) }

/-- `tfmt::setHTMLFormattable`: ORs `value << htmlBit` into the word. -/
def setHTMLFormattable (s : OStream) (value : Bool) : OStream :=
  { s with iword := s.iword ||| ((if value then 1 else 0) <<< htmlBit) }

/-- Complement within a 64-bit `long`, for `word &= ~widthMask`. -/
def compl64 (m : Nat) : Nat := (2 ^ 64 - 1) ^^^ m

/-- `tfmt::setWidth`: asserts `width < 256`, clears the width byte of the
flag word and ORs in `width << 8`. -/
def setWidth (s : OStream) (width : Nat) : Except Fatal OStream :=
  if width < 256 then
    .ok { s with iword := (s.iword &&& compl64 widthMask) ||| (width <<< 8) }
  else .error .assertionFailure

/-- `tfmt::getWidth`: the width byte of the flag word if nonzero, else the
OS column count (`osWidth`, the `ioctl`/console query result) for detected
terminals, else absent. -/
def getWidth (osWidth : Nat) (s : OStream) : Option Nat :=
  let width := (s.iword &&& widthMask) >>> 8
  if width > 0 then some width
  else if isTerminal s then some osWidth
  else none

/-- The chunks one `ostream << mod` insertion (`internal::ModBase::put`)
appends: the ANSI branch fires when the stream is term-formattable, the HTML
branch when it is HTML-formattable. -/
def putChunks (s : OStream) (m : Modifier) : List Chunk :=
  (if isTermFormattable s then [Chunk.ansi m] else []) ++
    (if isHTMLFormattable s then [Chunk.html m] else [])

/-- `internal::ModBase::put` (the effect of `ostream << mod`). -/
def put (m : Modifier) (s : OStream) : OStream :=
  { s with out := s.out ++ putChunks s m }

namespace ModStack

/-- `ModStack::apply`: inserts every stack entry into the stream in order. -/
def apply (mods : List Modifier) (s : OStream) : OStream :=
  mods.foldl (fun acc m => put m acc) s

/-- `ModStack::reset`: inserts `tfmt::Reset` once per stack entry. -/
def reset (mods : List Modifier) (s : OStream) : OStream :=
  mods.foldl (fun acc _ => put Reset acc) s

end ModStack

/-- The attached stack, read as the empty stack while none is allocated. -/
def stackOf (s : OStream) : List Modifier := s.stack.getD []

/-- `tfmt::pushModifier(mod, ostream)`: allocate an empty stack and register
the `erase_event` cleanup callback if no stack exists yet, then
`stack.reset(ostream); stack.push(mod); stack.apply(ostream)`. -/
def pushModifier (mod : Modifier) (s : OStream) : OStream :=
  let s1 : OStream :=
    match s.stack with
    | none => { s with stack := some [], cleanup := true }
    | some _ => s
  let st := stackOf s1
  let s2 := ModStack.reset st s1
  let newStack := st ++ [mod]
  let s3 : OStream := { s2 with stack := some newStack }
  ModStack.apply newStack s3

/-- `tfmt::popModifier(ostream)`: `assert` that a stack object is attached,
then `stack.reset(ostream); stack.pop(); stack.apply(ostream)`.  The
`assert` inspects only the `pword` pointer; `stack.pop()` is
`std::vector::pop_back`, which on an empty vector is undefined behaviour,
modelled as the fatal outcome `popBackOnEmpty`. -/
def popModifier (s : OStream) : Except Fatal OStream :=
  match s.stack with
  | none => .error .assertionFailure
  | some st =>
    let s1 := ModStack.reset st s
    if st.isEmpty then .error .popBackOnEmpty
    else
      let newStack := st.dropLast
      let s2 : OStream := { s1 with stack := some newStack }
      .ok (ModStack.apply newStack s2)

/-- A sequence of `pushModifier` calls, in order. -/
def pushList (mods : List Modifier) (s : OStream) : OStream :=
  mods.foldl (fun acc m => pushModifier m acc) s

/-- `n` consecutive `popModifier` calls. -/
def popN : Nat → OStream → Except Fatal OStream
  | 0, s => .ok s
  | n + 1, s => (popModifier s).bind (popN n)

/-- Modelled from the spec: moving the underlying buffer of one stream into
another (`std::basic_ostream` move construction, external substrate; spec
4.1: "all attached slot values move with it: the source stream is left in
the default/empty state and the destination observes exactly what the
source last had").  Returns (moved-from source, destination). -/
def moveStream (s : OStream) : OStream × OStream :=
  ({ out := [], iword := 0, stack := none, cleanup := false,
     terminal := s.terminal },
   { out := s.out, iword := s.iword, stack := s.stack, cleanup := s.cleanup,
     terminal := s.terminal })

/-- Rendered ANSI formatting state after one chunk: a terminal accumulates
the attribute codes it receives and the universal reset code clears them all
(spec glossary: the list of currently active modifiers, replayed from the
reset baseline).  HTML chunks and ordinary text carry no ANSI codes. -/
def termStep (st : List Modifier) : Chunk → List Modifier
  | .ansi m => if m.isReset then [] else st ++ [m]
  | .html _ => st
  | .text _ => st

/-- Rendered ANSI formatting state of an emission history, starting from the
reset baseline. -/
def termState (out : List Chunk) : List Modifier :=
  out.foldl termStep []

/-- Effect of one modifier on the rendered ANSI state. -/
def replayStep (acc : List Modifier) (m : Modifier) : List Modifier :=
  if m.isReset then [] else acc ++ [m]

/-- Rendered ANSI state of replaying a modifier stack bottom-to-top from the
reset baseline. -/
def interpStack (mods : List Modifier) : List Modifier :=
  mods.foldl replayStep []

/-- Rendered HTML formatting state after one chunk: the stack of currently
open `<font>` tag colour names; `</font>` closes the most recently opened
tag. -/
def htmlStep (st : List String) : Chunk → List String
  | .html m => if m.isReset then st.dropLast else st ++ [m.htmlBuffer.headD ""]
  | .ansi _ => st
  | .text _ => st

/-- Rendered HTML formatting state of an emission history. -/
def htmlState (out : List Chunk) : List String :=
  out.foldl htmlStep []

/-- Effect of one modifier on the rendered HTML state. -/
def htmlReplayStep (acc : List String) (m : Modifier) : List String :=
  if m.isReset then acc.dropLast else acc ++ [m.htmlBuffer.headD ""]

/-- Rendered HTML state of replaying a modifier stack from the baseline. -/
def htmlInterpStack (mods : List Modifier) : List String :=
  mods.foldl htmlReplayStep []

/-- Concatenated chunk groups produced by inserting each modifier of a list
through `f`. -/
def emits (f : Modifier → List Chunk) : List Modifier → List Chunk
  | [] => []
  | m :: ms => f m ++ emits f ms

/-- Bytes of a chunk list, in emission order. -/
def bytesOf : List Chunk → String
  | [] => ""
  | c :: cs => c.bytes ++ bytesOf cs

/-- Bytes written to the stream so far. -/
def outBytes (s : OStream) : String :=
  bytesOf s.out

/-- `n`-fold `List.dropLast`. -/
def dropLastN : Nat → List α → List α
  | 0, l => l
  | n + 1, l => dropLastN n l.dropLast

/-- Reachability invariant of the ANSI backend: the rendered ANSI state of a
term-formattable stream is the replay of its attached stack; a stream that
is not term-formattable has never received ANSI bytes. -/
def GoodT (s : OStream) : Prop :=
  termState s.out = if isTermFormattable s then interpStack (stackOf s) else []

/-- Reachability invariant of the HTML backend. -/
def GoodH (s : OStream) : Prop :=
  htmlState s.out = if isHTMLFormattable s then htmlInterpStack (stackOf s) else []

/-- A freshly constructed stream with flag word `iw`: nothing written, no
attached stack, no registered callback. -/
def freshStream (iw : Nat) (tm : Bool) : OStream :=
  { out := [], iword := iw, stack := none, cleanup := false, terminal := tm }

lemma putChunks_update (s : OStream) (o : List Chunk) (st : Option (List Modifier))
    (cl : Bool) :
    putChunks { s with out := o, stack := st, cleanup := cl } = putChunks s := rfl

lemma emits_append (f : Modifier → List Chunk) (a b : List Modifier) :
    emits f (a ++ b) = emits f a ++ emits f b := by
  induction a with
  | nil => simp [emits]
  | cons m a ih => simp [emits, ih]

lemma bytesOf_append (a b : List Chunk) :
    bytesOf (a ++ b) = bytesOf a ++ bytesOf b := by
  induction a with
  | nil => simp [bytesOf]
  | cons c a ih => simp [bytesOf, ih, String.append_assoc]

lemma apply_eq (ms : List Modifier) (s : OStream) :
    ModStack.apply ms s = { s with out := s.out ++ emits (putChunks s) ms } := by
  induction ms generalizing s with
  | nil => simp [ModStack.apply, emits]
  | cons m ms ih =>
    show ModStack.apply ms (put m s) = _
    rw [ih (put m s)]
    simp [put, emits, putChunks_update, List.append_assoc]

lemma reset_eq (ms : List Modifier) (s : OStream) :
    ModStack.reset ms s =
      { s with out := s.out ++ emits (fun _ => putChunks s Reset) ms } := by
  induction ms generalizing s with
  | nil => simp [ModStack.reset, emits]
  | cons m ms ih =>
    show ModStack.reset ms (put Reset s) = _
    rw [ih (put Reset s)]
    simp [put, emits, putChunks_update, List.append_assoc]

lemma pushModifier_eq (m : Modifier) (s : OStream) :
    pushModifier m s =
      { s with
        out := s.out ++ emits (fun _ => putChunks s Reset) (stackOf s)
            ++ emits (putChunks s) (stackOf s ++ [m]),
        stack := some (stackOf s ++ [m]),
        cleanup := s.cleanup || s.stack.isNone } := by
  cases hs : s.stack with
  | none =>
    simp [pushModifier, hs, stackOf, reset_eq, apply_eq, emits, putChunks_update]
  | some st =>
    simp [pushModifier, hs, stackOf, reset_eq, apply_eq, putChunks_update,
      List.append_assoc]

lemma popModifier_none (s : OStream) (h : s.stack = none) :
    popModifier s = .error .assertionFailure := by
  simp [popModifier, h]

lemma popModifier_empty (s : OStream) (h : s.stack = some []) :
    popModifier s = .error .popBackOnEmpty := by
  simp [popModifier, h]

lemma popModifier_eq (s : OStream) (st : List Modifier) (h : s.stack = some st)
    (hne : st ≠ []) :
    popModifier s =
      .ok { s with
        out := s.out ++ emits (fun _ => putChunks s Reset) st
            ++ emits (putChunks s) st.dropLast,
        stack := some st.dropLast } := by
  simp [popModifier, h, hne, reset_eq, apply_eq, putChunks_update,
    List.append_assoc, List.isEmpty_iff]

lemma termState_append (a b : List Chunk) :
    termState (a ++ b) = b.foldl termStep (termState a) := by
  simp [termState, List.foldl_append]

lemma htmlState_append (a b : List Chunk) :
    htmlState (a ++ b) = b.foldl htmlStep (htmlState a) := by
  simp [htmlState, List.foldl_append]

lemma foldl_termStep_put (s : OStream) (hf : isTermFormattable s = true)
    (m : Modifier) (x : List Modifier) :
    List.foldl termStep x (putChunks s m) = replayStep x m := by
  cases hh : isHTMLFormattable s <;> simp [putChunks, hf, hh, termStep, replayStep]

lemma foldl_termStep_put_noterm (s : OStream) (hf : isTermFormattable s = false)
    (m : Modifier) (x : List Modifier) :
    List.foldl termStep x (putChunks s m) = x := by
  cases hh : isHTMLFormattable s <;> simp [putChunks, hf, hh, termStep]

lemma foldl_termStep_apply (s : OStream) (hf : isTermFormattable s = true)
    (ms : List Modifier) (x : List Modifier) :
    List.foldl termStep x (emits (putChunks s) ms) = ms.foldl replayStep x := by
  induction ms generalizing x with
  | nil => rfl
  | cons m ms ih =>
    simp only [emits, List.foldl_append, List.foldl_cons]
    rw [foldl_termStep_put s hf, ih]

lemma foldl_termStep_apply_noterm (s : OStream) (hf : isTermFormattable s = false)
    (ms : List Modifier) (x : List Modifier) :
    List.foldl termStep x (emits (putChunks s) ms) = x := by
  induction ms generalizing x with
  | nil => rfl
  | cons m ms ih =>
    simp only [emits, List.foldl_append]
    rw [foldl_termStep_put_noterm s hf, ih]

lemma foldl_termStep_resets (s : OStream) (hf : isTermFormattable s = true)
    (ms : List Modifier) (x : List Modifier) :
    List.foldl termStep x (emits (fun _ => putChunks s Reset) ms) =
      if ms.isEmpty then x else [] := by
  induction ms generalizing x with
  | nil => rfl
  | cons m ms ih =>
    simp only [emits, List.foldl_append]
    rw [foldl_termStep_put s hf]
    have hr : replayStep x Reset = [] := by simp [replayStep, Reset, mkReset]
    rw [hr, ih]
    cases ms <;> simp

lemma foldl_termStep_resets_noterm (s : OStream) (hf : isTermFormattable s = false)
    (ms : List Modifier) (x : List Modifier) :
    List.foldl termStep x (emits (fun _ => putChunks s Reset) ms) = x := by
  induction ms generalizing x with
  | nil => rfl
  | cons m ms ih =>
    simp only [emits, List.foldl_append]
    rw [foldl_termStep_put_noterm s hf, ih]

lemma foldl_htmlStep_put (s : OStream) (hh : isHTMLFormattable s = true)
    (m : Modifier) (x : List String) :
    List.foldl htmlStep x (putChunks s m) = htmlReplayStep x m := by
  cases hf : isTermFormattable s <;> simp [putChunks, hf, hh, htmlStep, htmlReplayStep]

lemma foldl_htmlStep_put_nohtml (s : OStream) (hh : isHTMLFormattable s = false)
    (m : Modifier) (x : List String) :
    List.foldl htmlStep x (putChunks s m) = x := by
  cases hf : isTermFormattable s <;> simp [putChunks, hf, hh, htmlStep]

lemma foldl_htmlStep_apply (s : OStream) (hh : isHTMLFormattable s = true)
    (ms : List Modifier) (x : List String) :
    List.foldl htmlStep x (emits (putChunks s) ms) = ms.foldl htmlReplayStep x := by
  induction ms generalizing x with
  | nil => rfl
  | cons m ms ih =>
    simp only [emits, List.foldl_append, List.foldl_cons]
    rw [foldl_htmlStep_put s hh, ih]

lemma foldl_htmlStep_apply_nohtml (s : OStream) (hh : isHTMLFormattable s = false)
    (ms : List Modifier) (x : List String) :
    List.foldl htmlStep x (emits (putChunks s) ms) = x := by
  induction ms generalizing x with
  | nil => rfl
  | cons m ms ih =>
    simp only [emits, List.foldl_append]
    rw [foldl_htmlStep_put_nohtml s hh, ih]

lemma foldl_htmlStep_resets (s : OStream) (hh : isHTMLFormattable s = true)
    (ms : List Modifier) (x : List String) :
    List.foldl htmlStep x (emits (fun _ => putChunks s Reset) ms) =
      dropLastN ms.length x := by
  induction ms generalizing x with
  | nil => rfl
  | cons m ms ih =>
    simp only [emits, List.foldl_append]
    rw [foldl_htmlStep_put s hh]
    have hr : htmlReplayStep x Reset = x.dropLast := by simp [htmlReplayStep, Reset, mkReset]
    rw [hr, ih]
    rfl

lemma foldl_htmlStep_resets_nohtml (s : OStream) (hh : isHTMLFormattable s = false)
    (ms : List Modifier) (x : List String) :
    List.foldl htmlStep x (emits (fun _ => putChunks s Reset) ms) = x := by
  induction ms generalizing x with
  | nil => rfl
  | cons m ms ih =>
    simp only [emits, List.foldl_append]
    rw [foldl_htmlStep_put_nohtml s hh, ih]

lemma length_foldl_htmlReplayStep (ms : List Modifier) (x : List String) :
    (ms.foldl htmlReplayStep x).length ≤ x.length + ms.length := by
  induction ms generalizing x with
  | nil => simp
  | cons m ms ih =>
    have h1 := ih (htmlReplayStep x m)
    have h2 : (htmlReplayStep x m).length ≤ x.length + 1 := by
      unfold htmlReplayStep
      split
      · simp only [List.length_dropLast]; omega
      · simp
    simp only [List.foldl_cons, List.length_cons]
    omega

lemma dropLastN_eq_nil (n : Nat) (l : List α) (h : l.length ≤ n) :
    dropLastN n l = [] := by
  induction n generalizing l with
  | zero =>
    have : l = [] := List.eq_nil_of_length_eq_zero (Nat.le_zero.mp h)
    simp [this, dropLastN]
  | succ n ih =>
    exact ih l.dropLast (by simp [List.length_dropLast]; omega)

lemma push_fields (m : Modifier) (s : OStream) :
    (pushModifier m s).iword = s.iword ∧ (pushModifier m s).terminal = s.terminal ∧
      (pushModifier m s).stack = some (stackOf s ++ [m]) := by
  rw [pushModifier_eq]
  exact ⟨rfl, rfl, rfl⟩

lemma isTermFormattable_push (m : Modifier) (s : OStream) :
    isTermFormattable (pushModifier m s) = isTermFormattable s := by
  rw [pushModifier_eq]; rfl

lemma isHTMLFormattable_push (m : Modifier) (s : OStream) :
    isHTMLFormattable (pushModifier m s) = isHTMLFormattable s := by
  rw [pushModifier_eq]; rfl

lemma push_GoodT (m : Modifier) (s : OStream) (h : GoodT s) :
    GoodT (pushModifier m s) := by
  unfold GoodT at h ⊢
  have hout : (pushModifier m s).out =
      s.out ++ (emits (fun _ => putChunks s Reset) (stackOf s)
        ++ emits (putChunks s) (stackOf s ++ [m])) := by
    rw [pushModifier_eq, List.append_assoc]
  have hst : stackOf (pushModifier m s) = stackOf s ++ [m] := by
    rw [pushModifier_eq]; rfl
  rw [hout, hst, isTermFormattable_push, termState_append, List.foldl_append]
  cases hf : isTermFormattable s with
  | false =>
    rw [foldl_termStep_resets_noterm s hf, foldl_termStep_apply_noterm s hf]
    rw [hf] at h
    simpa using h
  | true =>
    rw [foldl_termStep_resets s hf, foldl_termStep_apply s hf]
    rw [hf] at h
    simp only [if_true] at h ⊢
    cases hstk : stackOf s with
    | nil => rw [hstk] at h; simp [h, interpStack]
    | cons a l => simp [interpStack]

lemma push_GoodH (m : Modifier) (s : OStream) (h : GoodH s) :
    GoodH (pushModifier m s) := by
  unfold GoodH at h ⊢
  have hout : (pushModifier m s).out =
      s.out ++ (emits (fun _ => putChunks s Reset) (stackOf s)
        ++ emits (putChunks s) (stackOf s ++ [m])) := by
    rw [pushModifier_eq, List.append_assoc]
  have hst : stackOf (pushModifier m s) = stackOf s ++ [m] := by
    rw [pushModifier_eq]; rfl
  rw [hout, hst, isHTMLFormattable_push, htmlState_append, List.foldl_append]
  cases hh : isHTMLFormattable s with
  | false =>
    rw [foldl_htmlStep_resets_nohtml s hh, foldl_htmlStep_apply_nohtml s hh]
    rw [hh] at h
    simpa using h
  | true =>
    rw [foldl_htmlStep_resets s hh, foldl_htmlStep_apply s hh]
    rw [hh] at h
    simp only [if_true] at h ⊢
    have hlen : (htmlState s.out).length ≤ (stackOf s).length := by
      rw [h]
      simpa using length_foldl_htmlReplayStep (stackOf s) []
    rw [dropLastN_eq_nil _ _ hlen]
    rfl

lemma pop_spec (s : OStream) (st : List Modifier) (hstk : s.stack = some st)
    (hne : st ≠ []) (ht : GoodT s) (hh : GoodH s) :
    ∃ s', popModifier s = .ok s' ∧ s'.stack = some st.dropLast ∧
      s'.iword = s.iword ∧ s'.terminal = s.terminal ∧ GoodT s' ∧ GoodH s' := by
  refine ⟨_, popModifier_eq s st hstk hne, rfl, rfl, rfl, ?_, ?_⟩
  · unfold GoodT at ht ⊢
    have hsof : stackOf s = st := by simp [stackOf, hstk]
    show termState (s.out ++ emits (fun _ => putChunks s Reset) st
        ++ emits (putChunks s) st.dropLast) =
      if isTermFormattable s then interpStack st.dropLast else []
    rw [List.append_assoc, termState_append, List.foldl_append]
    cases hf : isTermFormattable s with
    | false =>
      rw [foldl_termStep_resets_noterm s hf, foldl_termStep_apply_noterm s hf]
      rw [hf] at ht
      simpa using ht
    | true =>
      rw [foldl_termStep_resets s hf, foldl_termStep_apply s hf]
      cases st with
      | nil => exact absurd rfl hne
      | cons a l => simp [interpStack]
  · unfold GoodH at hh ⊢
    have hsof : stackOf s = st := by simp [stackOf, hstk]
    show htmlState (s.out ++ emits (fun _ => putChunks s Reset) st
        ++ emits (putChunks s) st.dropLast) =
      if isHTMLFormattable s then htmlInterpStack st.dropLast else []
    rw [List.append_assoc, htmlState_append, List.foldl_append]
    cases hf : isHTMLFormattable s with
    | false =>
      rw [foldl_htmlStep_resets_nohtml s hf, foldl_htmlStep_apply_nohtml s hf]
      rw [hf] at hh
      simpa using hh
    | true =>
      rw [foldl_htmlStep_resets s hf, foldl_htmlStep_apply s hf]
      rw [hf, hsof] at hh
      simp only [if_true] at hh ⊢
      have hlen : (htmlState s.out).length ≤ st.length := by
        rw [hh]
        simpa using length_foldl_htmlReplayStep st []
      rw [dropLastN_eq_nil _ _ hlen]
      rfl

lemma pushList_spec (mods : List Modifier) (s : OStream) (ht : GoodT s) (hh : GoodH s) :
    GoodT (pushList mods s) ∧ GoodH (pushList mods s) ∧
      (pushList mods s).iword = s.iword ∧ (pushList mods s).terminal = s.terminal ∧
      stackOf (pushList mods s) = stackOf s ++ mods ∧
      (mods ≠ [] → (pushList mods s).stack = some (stackOf s ++ mods)) := by
  induction mods generalizing s with
  | nil =>
    exact ⟨ht, hh, rfl, rfl, by simp [pushList], fun h => absurd rfl h⟩
  | cons m ms ih =>
    have hGT := push_GoodT m s ht
    have hGH := push_GoodH m s hh
    obtain ⟨hiw, htm, hstk⟩ := push_fields m s
    have hsof : stackOf (pushModifier m s) = stackOf s ++ [m] := by
      simp [stackOf, hstk]
    obtain ⟨g1, g2, g3, g4, g5, g6⟩ := ih (pushModifier m s) hGT hGH
    have hpl : pushList (m :: ms) s = pushList ms (pushModifier m s) := rfl
    rw [hpl]
    refine ⟨g1, g2, by rw [g3, hiw], by rw [g4, htm], ?_, fun _ => ?_⟩
    · rw [g5, hsof, List.append_assoc]
      rfl
    · by_cases hms : ms = []
      · subst hms
        show (pushModifier m s).stack = _
        rw [hstk]
      · rw [g6 hms, hsof, List.append_assoc]
        rfl

lemma popN_spec (n : Nat) :
    ∀ (st : List Modifier) (s : OStream), st.length = n → s.stack = some st →
      GoodT s → GoodH s →
      ∃ s1, popN n s = .ok s1 ∧ s1.stack = some [] ∧ GoodT s1 ∧ GoodH s1 := by
  induction n with
  | zero =>
    intro st s hlen hstk ht hh
    have he : st = [] := List.eq_nil_of_length_eq_zero hlen
    exact ⟨s, rfl, by rw [hstk, he], ht, hh⟩
  | succ n ih =>
    intro st s hlen hstk ht hh
    have hne : st ≠ [] := by
      intro e
      rw [e] at hlen
      simp at hlen
    obtain ⟨s1, hpop, hs1, _, _, ht1, hh1⟩ := pop_spec s st hstk hne ht hh
    have hlen1 : st.dropLast.length = n := by
      simp only [List.length_dropLast]
      omega
    obtain ⟨s2, h1, h2, h3, h4⟩ := ih st.dropLast s1 hlen1 hs1 ht1 hh1
    refine ⟨s2, ?_, h2, h3, h4⟩
    show (popModifier s).bind (popN n) = .ok s2
    rw [hpop]
    exact h1

lemma emits_const_nil (ms : List Modifier) : emits (fun _ => ([] : List Chunk)) ms = [] := by
  induction ms with
  | nil => rfl
  | cons m ms ih => simpa [emits] using ih

lemma land_pow_ne (x k : Nat) : ((x &&& (1 <<< k)) != 0) = x.testBit k := by
  rw [Nat.one_shiftLeft, Nat.and_two_pow]
  cases h : x.testBit k <;> simp [h, Nat.pos_iff_ne_zero]

lemma width_bits_set (x w : Nat) (hw : w < 256) :
    (((x &&& compl64 widthMask) ||| (w <<< 8)) &&& widthMask) >>> 8 = w := by
  show (((x &&& ((2 ^ 64 - 1) ^^^ 0xFF00)) ||| (w <<< 8)) &&& 0xFF00) >>> 8 = w
  have hM : (0xFF00 : Nat) = (2 ^ 8 - 1) <<< 8 := by decide
  apply Nat.eq_of_testBit_eq
  intro i
  simp only [Nat.testBit_shiftRight, Nat.testBit_land, Nat.testBit_lor, Nat.testBit_xor,
    hM, Nat.testBit_shiftLeft, Nat.testBit_two_pow_sub_one]
  by_cases hi : i < 8
  · have h1 : 8 + i < 64 := by omega
    have h2 : 8 ≤ 8 + i := by omega
    have h3 : 8 + i - 8 = i := by omega
    simp [hi, h1, h2, h3]
  · have h4 : Nat.testBit w i = false := by
      apply Nat.testBit_lt_two_pow
      calc w < 256 := hw
        _ = 2 ^ 8 := by norm_num
        _ ≤ 2 ^ i := Nat.pow_le_pow_right (by norm_num) (by omega)
    have h3 : 8 + i - 8 = i := by omega
    simp [hi, h3, h4]

/-- C5: for all modifiers `A`, `B`, `C`, the ANSI encoding of `A | B` is the
order-preserving concatenation of `A`'s ANSI bytes and `B`'s, the HTML
fragment list of `A | B` is `A`'s list with `B`'s appended, and combination
is associative — both for the pure `operator|(const&, const&)` reading and
for the C++ elaboration of `(A | B) | C`, which routes the materialised
temporary `A | B` through `operator|(Modifier&&, Modifier const&)`. -/
theorem combine_concat_assoc (A B C : Modifier) :
    (combine A B).ansiBuffer = A.ansiBuffer ++ B.ansiBuffer ∧
    (combine A B).htmlBuffer = A.htmlBuffer ++ B.htmlBuffer ∧
    combine (combine A B) C = combine A (combine B C) ∧
    combineMove (combine A B) C = combine A (combine B C) := by
  refine ⟨rfl, rfl, ?_, ?_⟩ <;>
    simp [combine, combineMove, String.append_assoc, List.append_assoc]

/-- C7: `setWidth` with `width ≥ 256` fails its `assert` (a fatal trap, not a
recoverable error); with `width < 256` it succeeds and stores the width in
the width byte of the flag word. -/
theorem setWidth_assert_and_store (s : OStream) (w : Nat) :
    (256 ≤ w → setWidth s w = .error .assertionFailure) ∧
    (w < 256 → ∃ s1, setWidth s w = .ok s1 ∧ ((s1.iword &&& widthMask) >>> 8) = w) := by
  constructor
  · intro h
    unfold setWidth
    rw [if_neg (Nat.not_lt.mpr h)]
  · intro h
    refine ⟨{ s with iword := (s.iword &&& compl64 widthMask) ||| (w <<< 8) },
      ?_, width_bits_set s.iword w h⟩
    unfold setWidth
    rw [if_pos h]

/-- Witness for C7 at `width = 300` and `width = 42` on a fresh stream. -/
theorem setWidth_assert_and_store_witness :
    setWidth (freshStream 0 false) 300 = .error .assertionFailure ∧
    ∃ s1, setWidth (freshStream 0 false) 42 = .ok s1 ∧
      ((s1.iword &&& widthMask) >>> 8) = 42 :=
  ⟨(setWidth_assert_and_store (freshStream 0 false) 300).1 (by decide),
   (setWidth_assert_and_store (freshStream 0 false) 42).2 (by decide)⟩

/-- C9: `setTermFormattable(s, false)` and `setHTMLFormattable(s, false)`
leave the stream entirely unchanged (the implementation can only OR bits
in), and each formattable flag is monotone: once true, it stays true under
any subsequent set call with any value. -/
theorem setFormattable_monotone (s : OStream) (v : Bool) :
    setTermFormattable s false = s ∧
    setHTMLFormattable s false = s ∧
    (isTermFormattable s = true → isTermFormattable (setTermFormattable s v) = true) ∧
    (isTermFormattable s = true → isTermFormattable (setHTMLFormattable s v) = true) ∧
    (isHTMLFormattable s = true → isHTMLFormattable (setHTMLFormattable s v) = true) ∧
    (isHTMLFormattable s = true → isHTMLFormattable (setTermFormattable s v) = true) := by
  have mono : ∀ x y k, ((x &&& (1 <<< k)) != 0) = true →
      (((x ||| y) &&& (1 <<< k)) != 0) = true := by
    intro x y k h
    rw [land_pow_ne] at h ⊢
    rw [Nat.testBit_lor, h]
    rfl
  refine ⟨?_, ?_, ?_, ?_, ?_, ?_⟩
  · cases s
    simp [setTermFormattable]
  · cases s
    simp [setHTMLFormattable]
  · intro h
    rw [isTermFormattable, Bool.or_eq_true] at h
    rw [isTermFormattable, Bool.or_eq_true]
    rcases h with h | h
    · exact Or.inl (mono _ _ _ h)
    · exact Or.inr h
  · intro h
    rw [isTermFormattable, Bool.or_eq_true] at h
    rw [isTermFormattable, Bool.or_eq_true]
    rcases h with h | h
    · exact Or.inl (mono _ _ _ h)
    · exact Or.inr h
  · intro h
    rw [isHTMLFormattable] at h
    rw [isHTMLFormattable]
    exact mono _ _ _ h
  · intro h
    rw [isHTMLFormattable] at h
    rw [isHTMLFormattable]
    exact mono _ _ _ h

/-- Witness for C9 on a stream with both flags explicitly set. -/
theorem setFormattable_monotone_witness :
    isTermFormattable (freshStream 3 false) = true ∧
    isTermFormattable (setTermFormattable (freshStream 3 false) false) = true ∧
    isHTMLFormattable (setHTMLFormattable (freshStream 3 false) false) = true :=
  ⟨by decide,
   (setFormattable_monotone (freshStream 3 false) false).2.2.1 (by decide),
   (setFormattable_monotone (freshStream 3 false) false).2.2.2.2.1 (by decide)⟩

/-- C6: moving the underlying buffer of a stream transfers all attached
state (flag word, hence both formattable flags and the width, and the
modifier stack with its cleanup registration) to the destination, leaves
the source in the default/empty state, and a subsequent pop on the source
fails the `popModifier` assertion. -/
theorem moveStream_transfers_attached_state (s : OStream) :
    (moveStream s).2.iword = s.iword ∧
    (moveStream s).2.stack = s.stack ∧
    (moveStream s).2.cleanup = s.cleanup ∧
    (moveStream s).2.out = s.out ∧
    isTermFormattable (moveStream s).2 = isTermFormattable s ∧
    isHTMLFormattable (moveStream s).2 = isHTMLFormattable s ∧
    (∀ osWidth, getWidth osWidth (moveStream s).2 = getWidth osWidth s) ∧
    (moveStream s).1.iword = 0 ∧
    (moveStream s).1.stack = none ∧
    (moveStream s).1.out = [] ∧
    popModifier (moveStream s).1 = .error .assertionFailure := by
  refine ⟨rfl, rfl, rfl, rfl, rfl, rfl, fun _ => rfl, rfl, rfl, rfl, ?_⟩
  exact popModifier_none _ rfl

/-- Witness for C5 at the catalog modifiers `Red`, `Bold`, `Blue`. -/
theorem combine_concat_assoc_witness :
    (combine Red Bold).ansiBuffer = Red.ansiBuffer ++ Bold.ansiBuffer ∧
    (combine Red Bold).htmlBuffer = Red.htmlBuffer ++ Bold.htmlBuffer ∧
    combine (combine Red Bold) Blue = combine Red (combine Bold Blue) ∧
    combineMove (combine Red Bold) Blue = combine Red (combine Bold Blue) :=
  combine_concat_assoc Red Bold Blue

/-- Witness for C6 on a stream carrying flags and a one-entry stack. -/
theorem moveStream_transfers_attached_state_witness :
    (moveStream (⟨[], 3, some [Red], true, false⟩ : OStream)).2.iword = 3 ∧
    (moveStream (⟨[], 3, some [Red], true, false⟩ : OStream)).2.stack = some [Red] ∧
    popModifier (moveStream (⟨[], 3, some [Red], true, false⟩ : OStream)).1
      = .error .assertionFailure := by
  obtain ⟨h1, h2, -, -, -, -, -, -, -, -, h11⟩ :=
    moveStream_transfers_attached_state (⟨[], 3, some [Red], true, false⟩ : OStream)
  exact ⟨h1, h2, h11⟩

/-- C4 counterexample: `setWidth(S, 0)` satisfies `0 ≤ W < 256`, but
`getWidth` on the resulting non-terminal stream returns the absent value,
not `some 0` — the stored width only takes effect when nonzero. -/
theorem getWidth_setWidth_zero_cex :
    setWidth (freshStream 0 false) 0 = .ok (freshStream 0 false) ∧
    getWidth 37 (freshStream 0 false) = none ∧
    (none : Option Nat) ≠ some 0 := by
  refine ⟨?_, by decide, by decide⟩
  rfl

/-- C4 (amended): a stream with no stored width (width byte zero) that is
not a detected terminal reports the absent value; after `setWidth(S, W)`
with `1 ≤ W < 256`, `getWidth` returns `W` regardless of terminal status;
`setWidth(S, 0)` leaves the width byte zero (behaving like no stored
width). -/
theorem getWidth_spec (osWidth : Nat) (s : OStream) :
    (((s.iword &&& widthMask) >>> 8) = 0 → isTerminal s = false →
        getWidth osWidth s = none) ∧
    (∀ w, 1 ≤ w → w < 256 →
        ∃ s1, setWidth s w = .ok s1 ∧ getWidth osWidth s1 = some w) ∧
    (∀ s1, setWidth s 0 = .ok s1 → ((s1.iword &&& widthMask) >>> 8) = 0) := by
  refine ⟨?_, ?_, ?_⟩
  · intro h1 h2
    simp [getWidth, h1, h2]
  · intro w hw1 hw2
    refine ⟨{ s with iword := (s.iword &&& compl64 widthMask) ||| (w <<< 8) }, ?_, ?_⟩
    · unfold setWidth
      rw [if_pos hw2]
    · have hwb := width_bits_set s.iword w hw2
      simp only [getWidth, hwb]
      rw [if_pos (by omega)]
  · intro s1 h
    unfold setWidth at h
    rw [if_pos (by norm_num)] at h
    cases h
    exact width_bits_set s.iword 0 (by norm_num)

/-- Witness for C4 on a fresh non-terminal stream and `W = 42`. -/
theorem getWidth_spec_witness :
    getWidth 37 (freshStream 0 false) = none ∧
    ∃ s1, setWidth (freshStream 0 false) 42 = .ok s1 ∧ getWidth 37 s1 = some 42 :=
  ⟨(getWidth_spec 37 (freshStream 0 false)).1 (by decide) (by decide),
   (getWidth_spec 37 (freshStream 0 false)).2.1 42 (by decide) (by decide)⟩

/-- C8 counterexample: on an HTML-formattable, non-terminal stream the
non-color modifier `Bold` is not a silent no-op — it emits the empty-name
font tag `<font color="">`. -/
theorem html_bold_no_silent_noop_cex :
    outBytes (put Bold (freshStream 2 false)) = "<font color=\"\">" ∧
    outBytes (put Bold (freshStream 2 false)) ≠ outBytes (freshStream 2 false) := by
  constructor <;> decide

/-- C8 (amended): on an HTML-formattable stream that is not
term-formattable, every non-color modifier (Bold, Italic, Underline, Blink,
Concealed, Crossed — all carrying an empty HTML fragment) emits the
empty-name tag `<font color="">`, a non-reset color modifier emits
`<font color="NAME">`, and the reset modifier emits `</font>`. -/
theorem htmlPut_emission (s : OStream) (hh : isHTMLFormattable s = true)
    (ht : isTermFormattable s = false) :
    (∀ m, m ∈ [Bold, Italic, Underline, Blink, Concealed, Crossed] →
        outBytes (put m s) = outBytes s ++ "<font color=\"\">") ∧
    outBytes (put Red s) = outBytes s ++ "<font color=\"Crimson\">" ∧
    outBytes (put Reset s) = outBytes s ++ "</font>" := by
  have hbytes : ∀ m, outBytes (put m s) = outBytes s ++ (Chunk.html m).bytes := by
    intro m
    simp [put, putChunks, hh, ht, outBytes, bytesOf_append, bytesOf]
  refine ⟨?_, ?_, ?_⟩
  · intro m hm
    fin_cases hm <;> rw [hbytes] <;> rfl
  · rw [hbytes]
    rfl
  · rw [hbytes]
    rfl

/-- Witness for C8 on a stream with only the HTML bit set. -/
theorem htmlPut_emission_witness :
    isHTMLFormattable (freshStream 2 false) = true ∧
    isTermFormattable (freshStream 2 false) = false ∧
    outBytes (put Underline (freshStream 2 false))
      = outBytes (freshStream 2 false) ++ "<font color=\"\">" :=
  ⟨by decide, by decide,
   (htmlPut_emission (freshStream 2 false) (by decide) (by decide)).1 Underline
     (by simp)⟩

/-- C10: on a stream that is neither term- nor HTML-formattable, inserting a
modifier writes zero characters, and `pushModifier` / `popModifier` change
only the hidden attached stack state — output, flag word and terminal
status are untouched. -/
theorem nonformattable_frame (s : OStream) (m : Modifier)
    (ht : isTermFormattable s = false) (hh : isHTMLFormattable s = false) :
    put m s = s ∧
    pushModifier m s = { s with
      stack := some (stackOf s ++ [m]),
      cleanup := s.cleanup || s.stack.isNone } ∧
    (∀ st, s.stack = some st → st ≠ [] →
        popModifier s = .ok { s with stack := some st.dropLast }) := by
  have hchunks : ∀ m1, putChunks s m1 = [] := by
    intro m1
    simp [putChunks, ht, hh]
  have hfun : putChunks s = fun _ => ([] : List Chunk) := funext hchunks
  refine ⟨?_, ?_, ?_⟩
  · rw [put, hchunks, List.append_nil]
  · rw [pushModifier_eq]
    rw [show (fun (_ : Modifier) => putChunks s Reset) = fun _ => ([] : List Chunk) from
      funext fun _ => hchunks Reset]
    rw [hfun, emits_const_nil, emits_const_nil]
    simp
  · intro st hst hne
    rw [popModifier_eq s st hst hne]
    rw [show (fun (_ : Modifier) => putChunks s Reset) = fun _ => ([] : List Chunk) from
      funext fun _ => hchunks Reset]
    rw [hfun, emits_const_nil, emits_const_nil]
    simp

/-- Witness for C10 on a plain stream carrying a one-entry stack. -/
theorem nonformattable_frame_witness :
    isTermFormattable (⟨[], 0, some [Red], true, false⟩ : OStream) = false ∧
    isHTMLFormattable (⟨[], 0, some [Red], true, false⟩ : OStream) = false ∧
    popModifier (⟨[], 0, some [Red], true, false⟩ : OStream)
      = .ok (⟨[], 0, some [], true, false⟩ : OStream) := by
  refine ⟨by decide, by decide, ?_⟩
  have h := (nonformattable_frame (⟨[], 0, some [Red], true, false⟩ : OStream) Red
    (by decide) (by decide)).2.2 [Red] rfl (by decide)
  exact h

/-- C1: `pushModifier(mod, stream)` on a term-formattable stream emits the
reset phase (one `Reset` insertion per stacked entry, bringing the rendered
ANSI state to the reset baseline), appends `mod` to the attached stack
(allocating it and registering the destruction callback if none exists
yet), then replays every stack entry in order; the rendered state
afterwards is all previously active modifiers plus the new one. -/
theorem pushModifier_reset_append_replay (s : OStream) (m : Modifier)
    (hf : isTermFormattable s = true)
    (hinv : termState s.out = interpStack (stackOf s)) :
    (pushModifier m s).out = s.out ++ emits (fun _ => putChunks s Reset) (stackOf s)
        ++ emits (putChunks s) (stackOf s ++ [m]) ∧
    (pushModifier m s).stack = some (stackOf s ++ [m]) ∧
    (s.stack = none → (pushModifier m s).cleanup = true) ∧
    termState (s.out ++ emits (fun _ => putChunks s Reset) (stackOf s)) = [] ∧
    termState (pushModifier m s).out = interpStack (stackOf s ++ [m]) ∧
    termState (pushModifier m s).out = replayStep (termState s.out) m := by
  have hreset : termState (s.out ++ emits (fun _ => putChunks s Reset) (stackOf s)) = [] := by
    rw [termState_append, foldl_termStep_resets s hf]
    cases hstk : stackOf s with
    | nil =>
      rw [hstk] at hinv
      simp [hinv, interpStack]
    | cons a l => simp
  have hout : (pushModifier m s).out =
      s.out ++ emits (fun _ => putChunks s Reset) (stackOf s)
        ++ emits (putChunks s) (stackOf s ++ [m]) := by
    rw [pushModifier_eq]
  have hterm : termState (pushModifier m s).out = interpStack (stackOf s ++ [m]) := by
    rw [hout, termState_append, hreset, foldl_termStep_apply s hf]
    rfl
  refine ⟨hout, by rw [pushModifier_eq], ?_, hreset, hterm, ?_⟩
  · intro h
    rw [pushModifier_eq]
    simp [h]
  · rw [hterm, hinv]
    simp [interpStack, List.foldl_append, replayStep]

/-- Witness for C1: pushing `Red` onto a fresh term-formattable stream. -/
theorem pushModifier_reset_append_replay_witness :
    isTermFormattable (freshStream 1 false) = true ∧
    termState (pushModifier Red (freshStream 1 false)).out = interpStack [Red] ∧
    (pushModifier Red (freshStream 1 false)).stack = some [Red] :=
  ⟨by decide,
   (pushModifier_reset_append_replay (freshStream 1 false) Red (by decide)
     (by decide)).2.2.2.2.1,
   (pushModifier_reset_append_replay (freshStream 1 false) Red (by decide)
     (by decide)).2.1⟩

/-- C2: any sequence of pushes on a fresh stream followed by the same number
of pops succeeds and returns the rendered ANSI and HTML formatting state to
the reset baseline the stream had before the first push. -/
theorem push_pop_roundtrip (mods : List Modifier) (s0 : OStream)
    (hstack : s0.stack = none) (hout : s0.out = []) :
    ∃ s1, popN mods.length (pushList mods s0) = .ok s1 ∧
      termState s1.out = termState s0.out ∧
      htmlState s1.out = htmlState s0.out := by
  have hT : GoodT s0 := by
    unfold GoodT
    rw [hout]
    cases hb : isTermFormattable s0 <;>
      simp [hb, termState, stackOf, hstack, interpStack]
  have hH : GoodH s0 := by
    unfold GoodH
    rw [hout]
    cases hb : isHTMLFormattable s0 <;>
      simp [hb, htmlState, stackOf, hstack, htmlInterpStack]
  obtain ⟨g1, g2, _, _, g5, g6⟩ := pushList_spec mods s0 hT hH
  by_cases hm : mods = []
  · subst hm
    exact ⟨s0, rfl, rfl, rfl⟩
  · have hsof0 : stackOf s0 = [] := by simp [stackOf, hstack]
    have hstk : (pushList mods s0).stack = some mods := by
      rw [g6 hm, hsof0]
      rfl
    obtain ⟨s1, h1, h2, h3, h4⟩ :=
      popN_spec mods.length mods (pushList mods s0) rfl hstk g1 g2
    have hsof1 : stackOf s1 = [] := by simp [stackOf, h2]
    refine ⟨s1, h1, ?_, ?_⟩
    · unfold GoodT at h3
      rw [hsof1] at h3
      rw [hout, h3]
      cases hb : isTermFormattable s1 <;> simp [hb, termState, interpStack]
    · unfold GoodH at h4
      rw [hsof1] at h4
      rw [hout, h4]
      cases hb : isHTMLFormattable s1 <;> simp [hb, htmlState, htmlInterpStack]

/-- Witness for C2: two pushes and two pops on a fresh term-formattable
stream. -/
theorem push_pop_roundtrip_witness :
    ∃ s1, popN 2 (pushList [Red, Bold] (freshStream 1 false)) = .ok s1 ∧
      termState s1.out = termState (freshStream 1 false).out ∧
      htmlState s1.out = htmlState (freshStream 1 false).out :=
  push_pop_roundtrip [Red, Bold] (freshStream 1 false) rfl rfl

/-- C3 (code bug): after a push and a matching pop the stack object still
exists but is empty, so a second pop passes the `assert` (which inspects
only the `pword` pointer) and reaches `std::vector::pop_back` on an empty
vector — undefined behaviour, not the fatal assertion the spec promises for
every push/pop mismatch. -/
theorem popModifier_unmatched_pop_evades_assert :
    (popModifier (pushModifier Red (freshStream 1 false))).map OStream.stack
        = .ok (some []) ∧
    popN 2 (pushModifier Red (freshStream 1 false)) = .error .popBackOnEmpty ∧
    Fatal.popBackOnEmpty ≠ Fatal.assertionFailure := by
  refine ⟨rfl, rfl, by decide⟩

end tfmt
